import Mathlib

/-!
Verification development for the UserAutomationService repository.

The Python sources are shallowly embedded as Lean definitions:

* `app/email_generator.py` (`EmailGenerator`) — institutional-address
  allocation and duplicate detection by normalized name;
* `app/user_creator.py` (`UserCreator`) — provisioning orchestration of
  new users in the directory service, with group-assignment retry;
* `app/user_processor.py` (`UserProcessor.process_file`, step 3) — the
  per-candidate resolve-or-allocate loop.

Python strings are modelled as Lean `String` (a list of characters, one per
Unicode code point, matching Python's code-point view).  The Unicode text
operations (`str.lower`, NFD decomposition, combining-mark category, the
`str.isalnum` test) are modelled at the character level restricted to the
ASCII plus Latin-1 Spanish repertoire that the application processes
(a-z, A-Z, digits, á é í ó ú ü ñ and their upper-case forms, the combining
marks NFD produces for them); characters outside this repertoire are kept
by the lower-casing map, decompose to themselves, and fail the
alphanumeric test exactly as Lean's ASCII `Char.isAlphanum` decides.
Python `set` objects are modelled as lists used only through membership,
and `dict` objects as association lists where the most recent insertion
is found first, matching overwrite-on-assignment semantics.  External
collaborators (the Graph API client, the password generator) are modelled
as explicit oracle values supplied to the orchestration functions, and
`async` effects (sleeps) are counted rather than performed.  Python
exceptions are modelled with `Except String`.
-/

namespace UAS

/-! ## Character-level text model -/

/-- Python `str.lower` per character: ASCII upper-case letters are shifted to
lower case, the Latin-1 accented capitals used by Spanish names map to their
lower-case forms, and every other character is unchanged. -/
def pyLowerChar (c : Char) : Char :=
  if 65 ≤ c.toNat ∧ c.toNat ≤ 90 then Char.ofNat (c.toNat + 32)
  else if c = 'Á' then 'á'
  else if c = 'É' then 'é'
  else if c = 'Í' then 'í'
  else if c = 'Ó' then 'ó'
  else if c = 'Ú' then 'ú'
  else if c = 'Ñ' then 'ñ'
  else if c = 'Ü' then 'ü'
  else c

/-- Python `str.lower` on a whole string. -/
def pyLower (s : String) : String := ⟨s.data.map pyLowerChar⟩

/-- Unicode NFD canonical decomposition per character, restricted to the
pre-composed Latin letters the application meets: each decomposes into its
base letter followed by a combining mark; other characters decompose to
themselves. -/
def nfdChar (c : Char) : List Char :=
  if c = 'á' then ['a', '́']
  else if c = 'é' then ['e', '́']
  else if c = 'í' then ['i', '́']
  else if c = 'ó' then ['o', '́']
  else if c = 'ú' then ['u', '́']
  else if c = 'ñ' then ['n', '̃']
  else if c = 'ü' then ['u', '̈']
  else [c]

/-- Unicode category `Mn` (combining marks), restricted to the Combining
Diacritical Marks block that the NFD step above can produce. -/
def isMn (c : Char) : Bool := 768 ≤ c.toNat && c.toNat ≤ 879

/-- Python `str.isalnum` per character (ASCII letters and digits; the
normalization pipeline has already removed the accented letters before this
test is applied). -/
def pyIsAlnum (c : Char) : Bool := c.isAlphanum

/-- Whitespace recognized by Python `str.split()`. -/
def isPySpace (c : Char) : Bool :=
  c == ' ' || c == '\t' || c == '\n' || c == '\x0b' || c == '\x0c' || c == '\r'

/-- Worker for `pySplit`: accumulates the current word (reversed). -/
def pySplitAux : List Char → List Char → List (List Char)
  | [], acc => if acc.isEmpty then [] else [acc.reverse]
  | c :: cs, acc =>
    if isPySpace c then
      if acc.isEmpty then pySplitAux cs [] else acc.reverse :: pySplitAux cs []
    else pySplitAux cs (c :: acc)

/-- Python `str.split()` with no argument: split on runs of whitespace,
discarding empty words. -/
def pySplit (l : List Char) : List (List Char) := pySplitAux l []

/-- Python `' '.join(words)` at the character-list level. -/
def joinSpaces : List (List Char) → List Char
  | [] => []
  | w :: ws =>
    match ws with
    | [] => w
    | _ :: _ => w ++ ' ' :: joinSpaces ws

/-- Python `text.replace(a, b)` for single characters. -/
def replaceChar (a b : Char) (l : List Char) : List Char :=
  l.map (fun c => if c == a then b else c)

/-- Python slicing `s[:n]` on code points. -/
def strTake (n : Nat) (s : String) : String := ⟨s.data.take n⟩

/-- Decimal digit character. -/
def digitChar (d : Nat) : Char := Char.ofNat (48 + d)

/-- Worker for `natStr`; the first argument is fuel bounding the number of
divisions by ten. -/
def natStrAux : Nat → Nat → List Char → List Char
  | 0, n, acc => digitChar (n % 10) :: acc
  | fuel + 1, n, acc =>
    if n < 10 then digitChar n :: acc else natStrAux fuel (n / 10) (digitChar (n % 10) :: acc)

/-- Python `str(n)` for a natural number: its decimal digits. -/
def natStr (n : Nat) : String := ⟨natStrAux n n []⟩

/-- Boolean lexicographic comparison of character lists by code point,
the order Python uses to compare strings. -/
def chListLe : List Char → List Char → Bool
  | [], _ => true
  | _ :: _, [] => false
  | a :: as, b :: bs =>
    if a.toNat < b.toNat then true
    else if b.toNat < a.toNat then false
    else chListLe as bs

/-- Python string comparison `a <= b` (code-point lexicographic). -/
def pyStrLe (a b : String) : Bool := chListLe a.data b.data

/-- Python `range(s, s + n)` as a list, used for `range(1, ...)` loops. -/
def attemptNumbers : Nat → Nat → List Nat
  | _, 0 => []
  | s, n + 1 => s :: attemptNumbers (s + 1) n

/-! ## `EmailGenerator._normalize_for_email` -/

/-- `EmailGenerator._normalize_for_email` from `app/email_generator.py`:
lower-case, NFD-decompose, drop combining marks, apply the manual
`ñ`/`ü` replacements, then either collapse whitespace and keep
alphanumerics and spaces (`preserve_spaces = true`) or delete spaces and
keep alphanumerics only. -/
def normalize_for_email (text : String) (preserve_spaces : Bool) : String :=
  if text = "" then ""
  else
    let lowered := text.data.map pyLowerChar
    let decomposed := lowered.flatMap nfdChar
    let stripped := decomposed.filter (fun c => !(isMn c))
    let replaced := replaceChar 'ü' 'u' (replaceChar 'ñ' 'n' stripped)
    if preserve_spaces then
      let collapsed := joinSpaces (pySplit replaced)
      ⟨collapsed.filter (fun c => pyIsAlnum c || c == ' ')⟩
    else
      let nospace := replaced.filter (fun c => !(c == ' '))
      ⟨nospace.filter pyIsAlnum⟩

/-! ## `EmailGenerator` state and operations -/

/-- State of an `EmailGenerator` instance (`app/email_generator.py`):
the configured domain, the set of addresses already present in the
directory, the set of addresses allocated in the current batch, and the
normalized-name index of existing users. -/
structure EmailGenerator where
  domain : String
  existing_emails : List String
  generated_in_batch : List String
  existing_users : List (String × String)
deriving DecidableEq

/-- Set insertion (Python `set.add`): a no-op when already a member. -/
def insertSet (s : String) (l : List String) : List String :=
  if l.contains s then l else s :: l

/-- Dictionary lookup (Python `dict.get`): the most recently inserted
binding of the key wins. -/
def dictGet (k : String) (m : List (String × String)) : Option String :=
  (m.find? (fun p => p.1 == k)).map (fun p => p.2)

/-- `EmailGenerator._is_available`: an address is available when its
lower-cased form is in neither the existing-address set nor the
batch-allocated set. -/
def _is_available (g : EmailGenerator) (email : String) : Bool :=
  let email_lower := pyLower email
  !(g.existing_emails.contains email_lower) && !(g.generated_in_batch.contains email_lower)

/-- `EmailGenerator.load_existing_emails`: replaces the existing-address
set with the lower-cased addresses. -/
def load_existing_emails (g : EmailGenerator) (emails : List String) : EmailGenerator :=
  { g with existing_emails := emails.map pyLower }

/-- One roster entry from the directory (`{"email": ..., "display_name": ...}`);
a missing key is the empty string, matching `user.get(key, '')`. -/
structure UserInfo where
  email : String
  display_name : String
deriving DecidableEq

/-- `EmailGenerator._normalize_name_for_comparison_from_display`: normalize
preserving spaces, split into words, sort the words, rejoin with spaces. -/
def _normalize_name_for_comparison_from_display (display_name : String) : String :=
  let normalized := normalize_for_email display_name true
  let words := (pySplit normalized.data).map (fun w => (⟨w⟩ : String))
  let words_sorted := List.insertionSort (fun a b => pyStrLe a b = true) words
  String.intercalate " " words_sorted

/-- `EmailGenerator._normalize_name_for_comparison`: combine given and family
names with a space, normalize preserving spaces, split, sort, rejoin. -/
def _normalize_name_for_comparison (full_name full_last_name : String) : String :=
  let combined := full_name ++ " " ++ full_last_name
  let normalized := normalize_for_email combined true
  let words := (pySplit normalized.data).map (fun w => (⟨w⟩ : String))
  let words_sorted := List.insertionSort (fun a b => pyStrLe a b = true) words
  String.intercalate " " words_sorted

/-- `EmailGenerator.load_existing_users`: for each entry with a non-empty
(lower-cased) email and a non-empty display name, bind the normalized
display name to the email in the index and add the email to the
existing-address set. -/
def load_existing_users (g : EmailGenerator) (users_info : List UserInfo) : EmailGenerator :=
  users_info.foldl
    (fun g user =>
      let email := pyLower user.email
      let display_name := user.display_name
      if (email != "") && (display_name != "") then
        { g with
          existing_users :=
            (_normalize_name_for_comparison_from_display display_name, email) :: g.existing_users,
          existing_emails := insertSet email g.existing_emails }
      else g)
    g

/-- `EmailGenerator.check_existing_user`: exact lookup of the candidate's
normalized name in the existing-user index. -/
def check_existing_user (g : EmailGenerator) (full_name full_last_name : String) : Option String :=
  dictGet (_normalize_name_for_comparison full_name full_last_name) g.existing_users

/-- Record an allocated address in the batch set (`_generated_in_batch.add`). -/
def addBatch (g : EmailGenerator) (email : String) : EmailGenerator :=
  { g with generated_in_batch := insertSet email g.generated_in_batch }

/-- `EmailGenerator.generate_email`: try the base address, then the
normalized second-last-name prefixes appended to the base local part, then
numeric suffixes 1..9999; the first available candidate is recorded in the
batch set and returned; when counter 9999 is exhausted an exception is
raised. -/
def generate_email (g : EmailGenerator) (first_name first_last_name second_last_name : String) :
    Except String (String × EmailGenerator) :=
  let name_normalized := normalize_for_email first_name false
  let last_name_normalized := normalize_for_email first_last_name false
  let second_last_normalized :=
    if second_last_name ≠ "" then normalize_for_email second_last_name false else ""
  let base_email := name_normalized ++ "." ++ last_name_normalized
  let email := base_email ++ "@" ++ g.domain
  if _is_available g email then .ok (email, addBatch g email)
  else
    let fromSecond :=
      if second_last_normalized ≠ "" then
        ((attemptNumbers 1 second_last_normalized.length).map
            (fun i => base_email ++ strTake i second_last_normalized ++ "@" ++ g.domain)).find?
          (fun c => _is_available g c)
      else none
    match fromSecond with
    | some candidate => .ok (candidate, addBatch g candidate)
    | none =>
      match
        ((attemptNumbers 1 9999).map (fun k => base_email ++ natStr k ++ "@" ++ g.domain)).find?
          (fun c => _is_available g c)
      with
      | some candidate => .ok (candidate, addBatch g candidate)
      | none =>
        .error ("No se pudo generar email único para " ++ first_name ++ " " ++ first_last_name)

/-- The resolution ladder of `generate_email` in the order the code tries
candidates: the base address, the second-last-name-prefixed addresses, the
numeric-suffixed addresses for counters 1 through 9999. -/
def emailCandidates (domain base_email second_last_normalized : String) : List String :=
  (base_email ++ "@" ++ domain) ::
    ((attemptNumbers 1 second_last_normalized.length).map
        (fun i => base_email ++ strTake i second_last_normalized ++ "@" ++ domain) ++
      (attemptNumbers 1 9999).map (fun k => base_email ++ natStr k ++ "@" ++ domain))

/-- An address is present case-insensitively in a stored set when some
member lower-cases to the same string. -/
def presentCI (l : List String) (email : String) : Prop :=
  ∃ x ∈ l, pyLower x = pyLower email

instance (l : List String) (email : String) : Decidable (presentCI l email) := by
  unfold presentCI; exact List.decidableBEx _ l

/-- Availability in the sense of the specification: the address is,
case-insensitively, in neither the pre-existing set nor the
batch-allocated set. -/
def claimAvailable (g : EmailGenerator) (email : String) : Prop :=
  ¬ presentCI g.existing_emails email ∧ ¬ presentCI g.generated_in_batch email

instance (g : EmailGenerator) (email : String) : Decidable (claimAvailable g email) := by
  unfold claimAvailable; exact instDecidableAnd

/-- A sequence of `generate_email` calls against one generator instance
(within one batch): each successful call threads its updated state to the
next, a failing call leaves the state unchanged, and the successfully
returned addresses are collected in order. -/
def runCalls (g : EmailGenerator) : List (String × String × String) → List String × EmailGenerator
  | [] => ([], g)
  | c :: rest =>
    match generate_email g c.1 c.2.1 c.2.2 with
    | .ok (e, g') =>
      let p := runCalls g' rest
      (e :: p.1, p.2)
    | .error _ => runCalls g rest

/-! ## `UserCreator` (`app/user_creator.py`) -/

/-- The configuration values `UserCreator` reads (`app/config.py`). -/
structure Settings where
  student_group : String
  teacher_group : String
  password_length : Nat
deriving DecidableEq

/-- Result dictionary of `GraphAPIClient.create_user`: a success flag, the
new account id, and an optional error message (`result.get('error', ...)`). -/
structure CreateResult where
  success : Bool
  user_id : String
  error : Option String
deriving DecidableEq

/-- Follow-up entry recorded in `created_without_group` for an account that
was created but not assigned to its group. -/
structure FollowUp where
  name : String
  email : String
  user_id : String
  password : String
  group_pending : String
deriving DecidableEq

/-- A processed user record (the Python per-user `dict`).  Fields the
pipeline adds later are `Option`s whose `none` stands for Python `None`
(or for the key being absent before the stage runs); `extra` carries the
spreadsheet fields no orchestration stage reads or writes. -/
structure UserRec where
  status : String
  status_message : String
  full_name : String
  full_last_name : String
  first_name : String
  first_last_name : String
  second_last_name : String
  vinculation_type : String
  institutional_email : String
  office365_created : Option Bool
  office365_user_id : Option String
  password_generated : Option String
  group_assigned : Option String
  creation_error : Option String
  created_without_group_list : Option (List FollowUp)
  extra : List (String × String)
deriving DecidableEq

/-- Oracle describing the outcome of the external calls made while
provisioning one user: the password produced by `generate_secure_password`,
the result (or exception) of `GraphAPIClient.create_user`, the result (or
exception) of `GraphAPIClient.get_group_id`, and the result (or exception)
of the `GraphAPIClient.add_user_to_group` call at each attempt number. -/
structure UserEnv where
  password : String
  create_result : Except String CreateResult
  group_id_result : Except String (Option String)
  assign_result : Nat → Except String Bool

/-- `UserCreator._get_group_for_vinculation`: static role-to-group lookup;
unknown roles fall back to the student group. -/
def _get_group_for_vinculation (settings : Settings) (vinculation_type : String) : String :=
  if vinculation_type == "Estudiante" then settings.student_group
  else if vinculation_type == "Docente" then settings.teacher_group
  else settings.student_group

/-- Outcome of `UserCreator._assign_to_group_with_retry`: whether the
assignment succeeded, how many `add_user_to_group` calls were made, and how
many 5-second backoff sleeps occurred. -/
structure RetryOutcome where
  assigned : Bool
  calls : Nat
  sleeps : Nat
deriving DecidableEq

/-- The `for attempt in range(1, max_attempts + 1)` loop of
`_assign_to_group_with_retry` over an explicit list of attempt numbers:
each attempt calls the oracle (an exception propagates); success returns
immediately; a failure followed by a further attempt sleeps 5 seconds
first. -/
def assignAttempts (oracle : Nat → Except String Bool) : List Nat → Except String RetryOutcome
  | [] => .ok ⟨false, 0, 0⟩
  | a :: rest =>
    match oracle a with
    | .error e => .error e
    | .ok success =>
      if success then .ok ⟨true, 1, 0⟩
      else
        if rest.isEmpty then .ok ⟨false, 1, 0⟩
        else
          match assignAttempts oracle rest with
          | .error e => .error e
          | .ok r => .ok ⟨r.assigned, r.calls + 1, r.sleeps + 1⟩

/-- `UserCreator._assign_to_group_with_retry` with `max_attempts` total
attempts numbered 1, 2, .... -/
def _assign_to_group_with_retry (oracle : Nat → Except String Bool) (max_attempts : Nat) :
    Except String RetryOutcome :=
  assignAttempts oracle (attemptNumbers 1 max_attempts)

/-- The follow-up entry appended to `created_without_group`. -/
def followUpOf (user : UserRec) (password group_name user_id : String) : FollowUp :=
  { name := user.full_name ++ " " ++ user.full_last_name
    email := user.institutional_email
    user_id := user_id
    password := password
    group_pending := group_name }

/-- The body of the per-user `try` block of `UserCreator.create_users`:
generate a password, resolve the group, and (when `create_in_office365`)
create the account, wait for propagation, look up the group id and assign
with retry; every branch fills the four outcome fields of the record and
reports the follow-up entries it appended to `created_without_group`. -/
def processNewUserTry (settings : Settings) (env : UserEnv) (create_in_office365 : Bool)
    (user : UserRec) : Except String (UserRec × List FollowUp) :=
  let password := env.password
  let group_name := _get_group_for_vinculation settings user.vinculation_type
  if create_in_office365 then
    match env.create_result with
    | .error e => .error e
    | .ok creation_result =>
      if creation_result.success then
        let user_id := creation_result.user_id
        match env.group_id_result with
        | .error e => .error e
        | .ok (some _group_id) =>
          match _assign_to_group_with_retry env.assign_result 3 with
          | .error e => .error e
          | .ok r =>
            let group_assigned := r.assigned
            let u :=
              { user with
                office365_created := some true
                office365_user_id := some user_id
                password_generated := some password
                group_assigned := if group_assigned then some group_name else none
                creation_error := none }
            if group_assigned then .ok (u, [])
            else .ok (u, [followUpOf user password group_name user_id])
        | .ok none =>
          let u :=
            { user with
              office365_created := some true
              office365_user_id := some user_id
              password_generated := some password
              group_assigned := none
              creation_error := some ("Grupo '" ++ group_name ++ "' no encontrado") }
          .ok (u, [followUpOf user password group_name user_id])
      else
        .ok
          ({ user with
              office365_created := some false
              password_generated := some password
              group_assigned := none
              creation_error := some (creation_result.error.getD "Error desconocido") },
            [])
  else
    .ok
      ({ user with
          office365_created := some false
          password_generated := some password
          group_assigned := some group_name
          creation_error := none },
        [])

/-- One iteration of the `for user in new_users` loop: the `try` body with
its `except` handler, which records the exception message in
`creation_error` and clears the other outcome fields. -/
def processNewUser (settings : Settings) (env : UserEnv) (create_in_office365 : Bool)
    (user : UserRec) : UserRec × List FollowUp :=
  match processNewUserTry settings env create_in_office365 user with
  | .ok r => r
  | .error e =>
    ({ user with
        office365_created := some false
        password_generated := none
        group_assigned := none
        creation_error := some e },
      [])

/-- The `for user in new_users` loop over the whole filtered list; the
oracle is indexed by the user's position among the new users. -/
def processList (settings : Settings) (env : Nat → UserEnv) (create_in_office365 : Bool) :
    Nat → List UserRec → List (UserRec × List FollowUp)
  | _, [] => []
  | i, u :: rest =>
    processNewUser settings (env i) create_in_office365 u ::
      processList settings env create_in_office365 (i + 1) rest

/-- The special record appended when `created_without_group` is non-empty
but no existing result record could carry it (the Python dict
`{'status': 'metadata', 'created_without_group': ...}`). -/
def metadataRec (fu : List FollowUp) : UserRec :=
  { status := "metadata", status_message := "", full_name := "", full_last_name := ""
    first_name := "", first_last_name := "", second_last_name := "", vinculation_type := ""
    institutional_email := "", office365_created := none, office365_user_id := none
    password_generated := none, group_assigned := none, creation_error := none
    created_without_group_list := some fu, extra := [] }

/-- The `for result in results` loop that stores the
`created_without_group` list on the first non-metadata result record;
`none` when every record has status `metadata` (the `for`/`else` case). -/
def attachLoop (fu : List FollowUp) : List UserRec → Option (List UserRec)
  | [] => none
  | r :: rest =>
    if r.status == "metadata" then (attachLoop fu rest).map (fun rs => r :: rs)
    else some ({ r with created_without_group_list := some fu } :: rest)

/-- Attach the `created_without_group` list to the results when non-empty,
appending a metadata record if no result record could carry it. -/
def attachFollowUps (results : List UserRec) (fu : List FollowUp) : List UserRec :=
  if fu.isEmpty then results
  else
    match attachLoop fu results with
    | some rs => rs
    | none => results ++ [metadataRec fu]

/-- `UserCreator.create_users`: process the records with status `new` in
order, then append the records with status `existing` with their outcome
fields cleared, then attach the `created_without_group` list.  The second
component is the `created_without_group` list itself (in the Python code it
is only embedded in the returned records; it is also returned here so the
follow-up bookkeeping can be stated directly). -/
def create_users (settings : Settings) (env : Nat → UserEnv) (users : List UserRec)
    (create_in_office365 : Bool) : List UserRec × List FollowUp :=
  let new_users := users.filter (fun u => u.status == "new")
  let existing_users := users.filter (fun u => u.status == "existing")
  let processed := processList settings env create_in_office365 0 new_users
  let results := processed.map Prod.fst
  let created_without_group := processed.flatMap Prod.snd
  let results :=
    results ++
      existing_users.map
        (fun u =>
          { u with
              office365_created := some false
              password_generated := none
              group_assigned := none
              creation_error := none })
  (attachFollowUps results created_without_group, created_without_group)

/-- Result records counted as created with a group assigned
(`office365_created` true and `group_assigned` set). -/
def isFullyProvisioned (u : UserRec) : Bool :=
  u.office365_created == some true && u.group_assigned.isSome

/-- Result records counted as created without a group
(`office365_created` true and `group_assigned` `None`). -/
def isCreatedWithoutGroup (u : UserRec) : Bool :=
  u.office365_created == some true && u.group_assigned == none

/-- Result records counted as failed new users
(`office365_created` false and status `new`). -/
def isFailedNew (u : UserRec) : Bool :=
  u.office365_created == some false && u.status == "new"

/-! ## `UserProcessor.process_file`, step 3 (`app/user_processor.py`) -/

/-- The `for user in users` loop of step 3 of `UserProcessor.process_file`:
each candidate is either matched to an existing user (status `existing`,
existing address copied) or given a freshly generated address (status
`new`); an exception from `generate_email` propagates out of the loop. -/
def process_users_step3 (g : EmailGenerator) :
    List UserRec → Except String (List UserRec × EmailGenerator)
  | [] => .ok ([], g)
  | user :: rest =>
    match check_existing_user g user.full_name user.full_last_name with
    | some existing_email =>
      let u :=
        { user with
            institutional_email := existing_email
            status := "existing"
            status_message := "Usuario ya existe en Office 365" }
      match process_users_step3 g rest with
      | .ok p => .ok (u :: p.1, p.2)
      | .error e => .error e
    | none =>
      match generate_email g user.first_name user.first_last_name user.second_last_name with
      | .ok (email, g') =>
        let u :=
          { user with
              institutional_email := email
              status := "new"
              status_message := "Usuario nuevo" }
        match process_users_step3 g' rest with
        | .ok p => .ok (u :: p.1, p.2)
        | .error e => .error e
      | .error e => .error e

/-- The base local part `normalize(first_name) + "." + normalize(first_last_name)`. -/
def baseLocal (first_name first_last_name : String) : String :=
  normalize_for_email first_name false ++ "." ++ normalize_for_email first_last_name false

/-- The normalized second last name (empty when the input is empty). -/
def secondNorm (second_last_name : String) : String :=
  if second_last_name ≠ "" then normalize_for_email second_last_name false else ""

/-- The resolution ladder a `generate_email` call works through. -/
def ladderOf (g : EmailGenerator) (first_name first_last_name second_last_name : String) :
    List String :=
  emailCandidates g.domain (baseLocal first_name first_last_name) (secondNorm second_last_name)

/-- The allocation-exhausted error message of `generate_email`. -/
def exhMsg (first_name first_last_name : String) : String :=
  "No se pudo generar email único para " ++ first_name ++ " " ++ first_last_name

/-! ## Concrete states and inputs used by witnesses and counterexamples -/

/-- A character that `pyLowerChar` leaves unchanged: neither an ASCII
capital nor one of the accented capitals. -/
def noUpper (c : Char) : Prop :=
  ¬(65 ≤ c.toNat ∧ c.toNat ≤ 90) ∧
    c ≠ 'Á' ∧ c ≠ 'É' ∧ c ≠ 'Í' ∧ c ≠ 'Ó' ∧ c ≠ 'Ú' ∧ c ≠ 'Ñ' ∧ c ≠ 'Ü'

instance (c : Char) : Decidable (noUpper c) := by
  unfold noUpper; infer_instance

/-- Scenario B state: `laura.becerra` and `laura.becerras` already taken. -/
def gScB : EmailGenerator :=
  ⟨"ecr.edu.co", ["laura.becerra@ecr.edu.co", "laura.becerras@ecr.edu.co"], [], []⟩

/-- A fresh generator for the configured domain with nothing loaded. -/
def gFresh : EmailGenerator := ⟨"ecr.edu.co", [], [], []⟩

/-- Index state used by the C6 witness. -/
def gW6 : EmailGenerator :=
  load_existing_users gFresh [⟨"laura.becerra@ecr.edu.co", "Laura Sofia Becerra Sandoval"⟩]

/-- The C5 witness oracle: the assignment fails twice, then succeeds on the
third attempt. -/
def oracleD : Nat → Except String Bool := fun k => .ok (k == 3)

/-- The outcome fields of a result record that the three outcome classes
and the status filter read. -/
def projOutcome (u : UserRec) : String × Option Bool × Option String :=
  (u.status, u.office365_created, u.group_assigned)

/-- Outcome contract of the per-user `try` body: every successful result
preserves the status, sets the creation flag to a boolean, and emits a
follow-up entry exactly when the record is created without a group. -/
def tryContract (x : Except String (UserRec × List FollowUp)) (u : UserRec) : Prop :=
  match x with
  | .error _ => True
  | .ok (r, fus) =>
    r.status = u.status ∧
      (r.office365_created = some true ∨ r.office365_created = some false) ∧
      fus.length = (if isCreatedWithoutGroup r then 1 else 0)

/-- Settings used by the C3 witness (the defaults of `app/config.py`). -/
def stW : Settings := ⟨"Estudiantes Licencias A5", "Administrativos Licencia A5", 12⟩

/-- Oracle used by the C3 witness: creation succeeds, the group id is
found, and the first assignment attempt succeeds. -/
def envW : Nat → UserEnv :=
  fun _ => ⟨"Temp-Pass-1", .ok ⟨true, "uid-001", none⟩, .ok (some "gid-001"), fun _ => .ok true⟩

/-- A new candidate record for the C3 witness. -/
def uNewW : UserRec :=
  ⟨"new", "Usuario nuevo", "Laura Sofia", "Becerra Sandoval", "Laura", "Becerra", "Sandoval",
    "Estudiante", "laura.becerra@ecr.edu.co", none, none, none, none, none, none, []⟩

/-- An existing candidate record for the C3 witness. -/
def uExistW : UserRec :=
  ⟨"existing", "Usuario ya existe en Office 365", "Juan Carlos", "Perez Lopez", "Juan", "Perez",
    "Lopez", "Docente", "juan.perez@ecr.edu.co", none, none, none, none, none, none, []⟩

/-- The fully provisioned result record of the C3 witness. -/
def uNewDoneW : UserRec :=
  { uNewW with
      office365_created := some true
      office365_user_id := some "uid-001"
      password_generated := some "Temp-Pass-1"
      group_assigned := some "Estudiantes Licencias A5"
      creation_error := none }

/-- Generator state for the C4 counterexample: every ladder candidate of
the "Ana Rojas" call is already taken. -/
def gC4 : EmailGenerator :=
  ⟨"ecr.edu.co",
    (emailCandidates "ecr.edu.co" (baseLocal "Ana" "Rojas") (secondNorm "")).map pyLower, [], []⟩

/-- First candidate of the C4 batch (allocation exhausts for it). -/
def uC4a : UserRec :=
  ⟨"pending", "", "Ana", "Rojas", "Ana", "Rojas", "", "Estudiante", "", none, none, none, none,
    none, none, []⟩

/-- Second candidate of the C4 batch (never reached). -/
def uC4b : UserRec :=
  ⟨"pending", "", "Luis", "Mora", "Luis", "Mora", "", "Estudiante", "", none, none, none, none,
    none, none, []⟩
/-- Roster used by the C8 witness: two entries whose display names
normalize to the same key. -/
def rosterW : List UserInfo :=
  [⟨"laura1@ecr.edu.co", "Laura Sofia Becerra Sandoval"⟩,
    ⟨"laura2@ecr.edu.co", "Becerra Sandoval Laura Sofia"⟩]


/-! ## Theorems -/

theorem find?_append (p : α → Bool) (l₁ l₂ : List α) :
    (l₁ ++ l₂).find? p =
      match l₁.find? p with
      | some x => some x
      | none => l₂.find? p := by
  induction l₁ with
  | nil => rfl
  | cons a l ih =>
    simp only [List.cons_append, List.find?_cons]
    cases p a <;> simp [ih]

theorem attemptNumbers_zero (s : Nat) : attemptNumbers s 0 = [] := rfl

theorem generate_email_eq_find (g : EmailGenerator) (f l s : String) :
    generate_email g f l s =
      match (ladderOf g f l s).find? (fun c => _is_available g c) with
      | some c => .ok (c, addBatch g c)
      | none => .error (exhMsg f l) := by
  unfold generate_email ladderOf emailCandidates baseLocal secondNorm exhMsg
  rw [List.find?_cons]
  cases h :
      _is_available g
        (normalize_for_email f false ++ "." ++ normalize_for_email l false ++ "@" ++ g.domain) with
  | true => simp [h]
  | false =>
    simp only [h, Bool.false_eq_true, if_false]
    rw [find?_append]
    by_cases hs : s ≠ ""
    · simp only [if_pos hs]
      by_cases h2 : normalize_for_email s false = ""
      · simp [h2, show ("" : String).length = 0 from rfl, attemptNumbers_zero]
        try rfl
      · simp only [ne_eq, h2, not_false_eq_true, if_pos]
        cases hfind :
            ((attemptNumbers 1 (normalize_for_email s false).length).map
                (fun i =>
                  normalize_for_email f false ++ "." ++ normalize_for_email l false ++
                    strTake i (normalize_for_email s false) ++ "@" ++ g.domain)).find?
              (fun c => _is_available g c) <;>
          (simp only [hfind]; try rfl)
    · simp only [if_neg hs]
      have hs' : s = "" := by simpa using hs
      simp [hs', show ("" : String).length = 0 from rfl, attemptNumbers_zero]
      try rfl

theorem char_toNat_inj {a b : Char} (h : a.toNat = b.toNat) : a = b := by
  apply Char.eq_of_val_eq
  apply UInt32.eq_of_val_eq
  exact Fin.ext h

theorem ofNat_toNat_small (m : Nat) (h1 : m < 55296) : (Char.ofNat m).toNat = m := by
  unfold Char.ofNat
  rw [dif_pos]
  · rfl
  · exact Or.inl h1

theorem noUpper_lowerFixed {c : Char} (h : noUpper c) : pyLowerChar c = c := by
  obtain ⟨h0, h1, h2, h3, h4, h5, h6, h7⟩ := h
  unfold pyLowerChar
  rw [if_neg h0, if_neg h1, if_neg h2, if_neg h3, if_neg h4, if_neg h5, if_neg h6, if_neg h7]

theorem ascii_ne_of_toNat_lt {c d : Char} (hc : c.toNat < 128) (hd : 128 ≤ d.toNat) : c ≠ d := by
  intro he
  subst he
  omega

theorem pyLowerChar_noUpper (c : Char) : noUpper (pyLowerChar c) := by
  unfold pyLowerChar
  split_ifs with h0 h1 h2 h3 h4 h5 h6 h7
  · have ht : (Char.ofNat (c.toNat + 32)).toNat = c.toNat + 32 :=
      ofNat_toNat_small _ (by omega)
    refine ⟨by omega, ?_, ?_, ?_, ?_, ?_, ?_, ?_⟩ <;>
      exact ascii_ne_of_toNat_lt (by omega) (by decide)
  · decide
  · decide
  · decide
  · decide
  · decide
  · decide
  · decide
  · exact ⟨h0, h1, h2, h3, h4, h5, h6, h7⟩

theorem nfdChar_noUpper {c : Char} (h : noUpper c) : ∀ d ∈ nfdChar c, noUpper d := by
  intro d hd
  unfold nfdChar at hd
  split_ifs at hd <;>
    simp only [List.mem_cons, List.mem_singleton, List.not_mem_nil, or_false] at hd
  · rcases hd with rfl | rfl <;> decide
  · rcases hd with rfl | rfl <;> decide
  · rcases hd with rfl | rfl <;> decide
  · rcases hd with rfl | rfl <;> decide
  · rcases hd with rfl | rfl <;> decide
  · rcases hd with rfl | rfl <;> decide
  · rcases hd with rfl | rfl <;> decide
  · rcases hd with rfl
    exact h

theorem replaceChar_noUpper {a b : Char} (hb : noUpper b) {l : List Char}
    (hl : ∀ c ∈ l, noUpper c) : ∀ c ∈ replaceChar a b l, noUpper c := by
  intro c hc
  unfold replaceChar at hc
  obtain ⟨x, hx, hcx⟩ := List.mem_map.mp hc
  by_cases hxa : x == a
  · simp only [hxa, if_true] at hcx
    exact hcx ▸ hb
  · simp only [hxa, if_false] at hcx
    exact hcx ▸ hl x hx

theorem norm_email_noUpper (t : String) : ∀ c ∈ (normalize_for_email t false).data, noUpper c := by
  intro c hc
  unfold normalize_for_email at hc
  by_cases ht : t = ""
  · rw [if_pos ht] at hc
    simp at hc
  · rw [if_neg ht] at hc
    simp only [Bool.false_eq_true, if_false] at hc
    have hc2 := List.mem_of_mem_filter hc
    have hc3 := List.mem_of_mem_filter hc2
    refine replaceChar_noUpper (by decide)
      (replaceChar_noUpper (by decide) ?_) c hc3
    intro d hd
    have hd2 := List.mem_of_mem_filter hd
    obtain ⟨x, hx, hdx⟩ := List.mem_flatMap.mp hd2
    obtain ⟨y, _, hxy⟩ := List.mem_map.mp hx
    exact nfdChar_noUpper (hxy ▸ pyLowerChar_noUpper y) d hdx

theorem map_pyLowerChar_eq_self {l : List Char} (h : ∀ c ∈ l, noUpper c) :
    l.map pyLowerChar = l := by
  induction l with
  | nil => rfl
  | cons a l ih =>
    simp only [List.map_cons]
    rw [noUpper_lowerFixed (h a (by simp)), ih (fun c hc => h c (by simp [hc]))]

theorem pyLower_eq_self {s : String} (h : ∀ c ∈ s.data, noUpper c) : pyLower s = s := by
  cases s with
  | mk d => exact congrArg String.mk (map_pyLowerChar_eq_self h)

theorem string_data_append (a b : String) : (a ++ b).data = a.data ++ b.data := rfl

theorem pyLower_append (a b : String) : pyLower (a ++ b) = pyLower a ++ pyLower b := by
  cases a with
  | mk da =>
    cases b with
    | mk db => exact congrArg String.mk (List.map_append pyLowerChar da db)

theorem digitChar_noUpper {d : Nat} (h : d < 10) : noUpper (digitChar d) := by
  unfold digitChar
  have ht : (Char.ofNat (48 + d)).toNat = 48 + d := ofNat_toNat_small _ (by omega)
  refine ⟨by omega, ?_, ?_, ?_, ?_, ?_, ?_, ?_⟩ <;>
    exact ascii_ne_of_toNat_lt (by omega) (by decide)

theorem natStrAux_noUpper (fuel : Nat) :
    ∀ n acc, (∀ c ∈ acc, noUpper c) → ∀ c ∈ natStrAux fuel n acc, noUpper c := by
  induction fuel with
  | zero =>
    intro n acc hacc c hc
    unfold natStrAux at hc
    rcases List.mem_cons.mp hc with rfl | hmem
    · exact digitChar_noUpper (Nat.mod_lt _ (by omega))
    · exact hacc c hmem
  | succ fuel ih =>
    intro n acc hacc c hc
    unfold natStrAux at hc
    by_cases hn : n < 10
    · rw [if_pos hn] at hc
      rcases List.mem_cons.mp hc with rfl | hmem
      · exact digitChar_noUpper hn
      · exact hacc c hmem
    · rw [if_neg hn] at hc
      refine ih (n / 10) _ ?_ c hc
      intro d hd
      rcases List.mem_cons.mp hd with rfl | hmem
      · exact digitChar_noUpper (Nat.mod_lt _ (by omega))
      · exact hacc d hmem

theorem natStr_noUpper (n : Nat) : ∀ c ∈ (natStr n).data, noUpper c :=
  natStrAux_noUpper n n [] (by simp)

theorem strTake_noUpper {s : String} (h : ∀ c ∈ s.data, noUpper c) (i : Nat) :
    ∀ c ∈ (strTake i s).data, noUpper c := by
  intro c hc
  exact h c (List.take_subset i s.data hc)

theorem ladder_lowerFixed (g : EmailGenerator) (f l s : String)
    (hdom : pyLower g.domain = g.domain) : ∀ c ∈ ladderOf g f l s, pyLower c = c := by
  have hbase : pyLower (baseLocal f l) = baseLocal f l := by
    unfold baseLocal
    rw [pyLower_append, pyLower_append]
    rw [pyLower_eq_self (norm_email_noUpper f), pyLower_eq_self (norm_email_noUpper l)]
    rfl
  have hsecond : ∀ c ∈ (secondNorm s).data, noUpper c := by
    unfold secondNorm
    by_cases hs : s ≠ ""
    · rw [if_pos hs]
      exact norm_email_noUpper s
    · rw [if_neg hs]
      simp
  intro c hc
  unfold ladderOf emailCandidates at hc
  rcases List.mem_cons.mp hc with rfl | hc
  · rw [pyLower_append, pyLower_append, hbase, hdom]
    rfl
  · rcases List.mem_append.mp hc with hc | hc
    · obtain ⟨i, _, rfl⟩ := List.mem_map.mp hc
      rw [pyLower_append, pyLower_append, pyLower_append, hbase, hdom]
      rw [pyLower_eq_self (strTake_noUpper hsecond i)]
      rfl
    · obtain ⟨k, _, rfl⟩ := List.mem_map.mp hc
      rw [pyLower_append, pyLower_append, pyLower_append, hbase, hdom]
      rw [pyLower_eq_self (natStr_noUpper k)]
      rfl

theorem generate_email_ok_parts {g : EmailGenerator} {f l s e : String} {g' : EmailGenerator}
    (h : generate_email g f l s = .ok (e, g')) :
    e ∈ ladderOf g f l s ∧ _is_available g e = true ∧ g' = addBatch g e := by
  rw [generate_email_eq_find] at h
  cases hf : (ladderOf g f l s).find? (fun c => _is_available g c) with
  | none => rw [hf] at h; simp at h
  | some c =>
    rw [hf] at h
    simp only [Except.ok.injEq, Prod.mk.injEq] at h
    obtain ⟨rfl, rfl⟩ := h
    exact ⟨List.mem_of_find?_eq_some hf, List.find?_some hf, rfl⟩

theorem available_not_mem_existing {g : EmailGenerator} {e : String}
    (h : _is_available g e = true) : pyLower e ∉ g.existing_emails := by
  unfold _is_available at h
  simp only [Bool.and_eq_true, Bool.not_eq_true'] at h
  simpa [List.elem_iff] using h.1

theorem available_not_mem_batch {g : EmailGenerator} {e : String}
    (h : _is_available g e = true) : pyLower e ∉ g.generated_in_batch := by
  unfold _is_available at h
  simp only [Bool.and_eq_true, Bool.not_eq_true'] at h
  simpa [List.elem_iff] using h.2

theorem insertSet_subset (x : String) (l : List String) : l ⊆ insertSet x l := by
  unfold insertSet
  split_ifs
  · exact fun a ha => ha
  · exact fun a ha => List.mem_cons_of_mem _ ha

theorem mem_insertSet_self (x : String) (l : List String) : x ∈ insertSet x l := by
  unfold insertSet
  split_ifs with h
  · exact List.elem_iff.mp h
  · exact List.mem_cons_self x l

/-- C7 helper and C10 core: a successful call only records the returned
address in the batch set. -/
theorem generate_email_ok_state {g : EmailGenerator} {f l s e : String} {g' : EmailGenerator}
    (h : generate_email g f l s = .ok (e, g')) :
    g'.domain = g.domain ∧ g'.existing_emails = g.existing_emails ∧
      g'.existing_users = g.existing_users ∧
      g'.generated_in_batch = insertSet e g.generated_in_batch := by
  obtain ⟨-, -, rfl⟩ := generate_email_ok_parts h
  exact ⟨rfl, rfl, rfl, rfl⟩

theorem find?_congr_pred {p q : α → Bool} (l : List α) (h : ∀ a ∈ l, p a = q a) :
    l.find? p = l.find? q := by
  induction l with
  | nil => rfl
  | cons a l ih =>
    rw [List.find?_cons, List.find?_cons, h a (by simp)]
    cases q a
    · exact ih fun a ha => h a (by simp [ha])
    · rfl

theorem presentCI_iff_mem {L : List String} (e : String) (hL : ∀ x ∈ L, pyLower x = x) :
    presentCI L e ↔ pyLower e ∈ L := by
  constructor
  · rintro ⟨x, hx, hxe⟩
    have hex : pyLower e = x := by rw [← hxe, hL x hx]
    rw [hex]
    exact hx
  · intro hm
    exact ⟨pyLower e, hm, hL _ hm⟩

theorem is_available_iff_claim (g : EmailGenerator) (e : String)
    (hE : ∀ x ∈ g.existing_emails, pyLower x = x)
    (hB : ∀ x ∈ g.generated_in_batch, pyLower x = x) :
    _is_available g e = true ↔ claimAvailable g e := by
  unfold _is_available claimAvailable
  rw [presentCI_iff_mem e hE, presentCI_iff_mem e hB]
  simp [List.elem_iff]

theorem is_available_eq_decide (g : EmailGenerator) (e : String)
    (hE : ∀ x ∈ g.existing_emails, pyLower x = x)
    (hB : ∀ x ∈ g.generated_in_batch, pyLower x = x) :
    _is_available g e = decide (claimAvailable g e) := by
  by_cases hca : claimAvailable g e
  · simp [hca, (is_available_iff_claim g e hE hB).mpr hca]
  · have hna : ¬ _is_available g e = true := fun ht => hca ((is_available_iff_claim g e hE hB).mp ht)
    simp [hca, Bool.eq_false_iff.mpr hna]

theorem runCalls_batch_mono (calls : List (String × String × String)) :
    ∀ g : EmailGenerator, g.generated_in_batch ⊆ (runCalls g calls).2.generated_in_batch := by
  induction calls with
  | nil => exact fun g => fun a ha => ha
  | cons c rest ih =>
    intro g
    unfold runCalls
    cases hge : generate_email g c.1 c.2.1 c.2.2 with
    | error e => exact ih g
    | ok p =>
      obtain ⟨e, g'⟩ := p
      have hst := generate_email_ok_state hge
      refine fun a ha => ih g' ?_
      rw [hst.2.2.2]
      exact insertSet_subset e _ ha

theorem runCalls_domain (calls : List (String × String × String)) :
    ∀ g : EmailGenerator, (runCalls g calls).2.domain = g.domain := by
  induction calls with
  | nil => exact fun g => rfl
  | cons c rest ih =>
    intro g
    unfold runCalls
    cases hge : generate_email g c.1 c.2.1 c.2.2 with
    | error e => exact ih g
    | ok p =>
      obtain ⟨e, g'⟩ := p
      rw [ih g', (generate_email_ok_state hge).1]

theorem generate_email_ok_lowerFixed {g : EmailGenerator} {f l s e : String} {g' : EmailGenerator}
    (hdom : pyLower g.domain = g.domain) (h : generate_email g f l s = .ok (e, g')) :
    pyLower e = e :=
  ladder_lowerFixed g f l s hdom e (generate_email_ok_parts h).1

theorem runCalls_avoid (calls : List (String × String × String)) :
    ∀ g : EmailGenerator, pyLower g.domain = g.domain →
      ∀ e ∈ (runCalls g calls).1, e ∉ g.generated_in_batch := by
  induction calls with
  | nil => intro g _ e he; simp [runCalls] at he
  | cons c rest ih =>
    intro g hdom e he
    unfold runCalls at he
    cases hge : generate_email g c.1 c.2.1 c.2.2 with
    | error msg =>
      rw [hge] at he
      exact ih g hdom e he
    | ok p =>
      obtain ⟨e0, g'⟩ := p
      rw [hge] at he
      have hst := generate_email_ok_state hge
      rcases List.mem_cons.mp he with rfl | he
      · have hlf := generate_email_ok_lowerFixed hdom hge
        have := available_not_mem_batch (generate_email_ok_parts hge).2.1
        rwa [hlf] at this
      · have hdom' : pyLower g'.domain = g'.domain := by rw [hst.1, hdom]
        have hnot := ih g' hdom' e he
        intro hmem
        apply hnot
        rw [hst.2.2.2]
        exact insertSet_subset e0 _ hmem

theorem runCalls_pairwise (calls : List (String × String × String)) :
    ∀ g : EmailGenerator, pyLower g.domain = g.domain →
      (runCalls g calls).1.Pairwise (fun a b => a ≠ b) := by
  induction calls with
  | nil => intro g _; simp [runCalls]
  | cons c rest ih =>
    intro g hdom
    unfold runCalls
    cases hge : generate_email g c.1 c.2.1 c.2.2 with
    | error msg => exact ih g hdom
    | ok p =>
      obtain ⟨e0, g'⟩ := p
      have hst := generate_email_ok_state hge
      have hdom' : pyLower g'.domain = g'.domain := by rw [hst.1, hdom]
      refine List.Pairwise.cons ?_ (ih g' hdom')
      intro e he
      have hnot := runCalls_avoid rest g' hdom' e he
      intro heq
      apply hnot
      rw [← heq, hst.2.2.2]
      exact mem_insertSet_self e0 _

/-- C1: `generate_email` returns the first candidate of the fixed ladder
(base address, then the normalized second-last-name prefixes appended to
the base local part, then integer suffixes 1..9999) that is available,
where available means the full address is, case-insensitively, in neither
the pre-existing-email set nor the batch-allocated set at the moment it is
tried; stated for states whose stored sets are lower-cased, as every set
the program builds is. -/
theorem c1_ladder_first_available (g : EmailGenerator) (f l s : String)
    (hE : ∀ x ∈ g.existing_emails, pyLower x = x)
    (hB : ∀ x ∈ g.generated_in_batch, pyLower x = x) :
    generate_email g f l s =
      match (ladderOf g f l s).find? (fun c => decide (claimAvailable g c)) with
      | some c => .ok (c, addBatch g c)
      | none => .error (exhMsg f l) := by
  rw [generate_email_eq_find,
    find?_congr_pred (ladderOf g f l s) (fun a _ => is_available_eq_decide g a hE hB)]

/-- C1 witness: with `laura.becerra@ecr.edu.co` and
`laura.becerras@ecr.edu.co` both taken and second last name `Sandoval`,
the call returns `laura.becerrasa@ecr.edu.co`. -/
theorem c1_witness :
    generate_email gScB "Laura" "Becerra" "Sandoval" =
      .ok ("laura.becerrasa@ecr.edu.co", addBatch gScB "laura.becerrasa@ecr.edu.co") := by
  rw [c1_ladder_first_available gScB "Laura" "Becerra" "Sandoval" (by decide) (by decide)]
  rfl

/-- C2: a generated address is never present, case-insensitively, in the
pre-existing set or the batch-allocated set at call time; the returned
address is added to the batch-allocated set before returning; and the
addresses returned by any sequence of calls within one batch are pairwise
distinct. -/
theorem c2_uniqueness (g : EmailGenerator) (hdom : pyLower g.domain = g.domain)
    (hE : ∀ x ∈ g.existing_emails, pyLower x = x)
    (hB : ∀ x ∈ g.generated_in_batch, pyLower x = x) :
    (∀ f l s e g', generate_email g f l s = .ok (e, g') →
        ¬ presentCI g.existing_emails e ∧ ¬ presentCI g.generated_in_batch e ∧
          g'.generated_in_batch = insertSet e g.generated_in_batch ∧
          e ∈ g'.generated_in_batch) ∧
      ∀ calls, (runCalls g calls).1.Pairwise (fun a b => a ≠ b) := by
  constructor
  · intro f l s e g' h
    have hparts := generate_email_ok_parts h
    have hclaim := (is_available_iff_claim g e hE hB).mp hparts.2.1
    have hst := generate_email_ok_state h
    refine ⟨hclaim.1, hclaim.2, hst.2.2.2, ?_⟩
    rw [hst.2.2.2]
    exact mem_insertSet_self e _
  · intro calls
    exact runCalls_pairwise calls g hdom

/-- C2 witness: at the scenario-B state the returned address
`laura.becerrasa@ecr.edu.co` is in neither set and is recorded, and the two
calls of a concrete batch return distinct addresses. -/
theorem c2_witness :
    (¬ presentCI gScB.existing_emails "laura.becerrasa@ecr.edu.co" ∧
        ¬ presentCI gScB.generated_in_batch "laura.becerrasa@ecr.edu.co" ∧
        (addBatch gScB "laura.becerrasa@ecr.edu.co").generated_in_batch =
          insertSet "laura.becerrasa@ecr.edu.co" gScB.generated_in_batch ∧
        "laura.becerrasa@ecr.edu.co" ∈
          (addBatch gScB "laura.becerrasa@ecr.edu.co").generated_in_batch) ∧
      (runCalls gFresh
          [("Laura", "Becerra", "Sandoval"), ("Laura", "Becerra", "Sandoval")]).1.Pairwise
        (fun a b => a ≠ b) :=
  ⟨(c2_uniqueness gScB (by decide) (by decide) (by decide)).1 "Laura" "Becerra" "Sandoval"
      "laura.becerrasa@ecr.edu.co" (addBatch gScB "laura.becerrasa@ecr.edu.co") (by rfl),
    (c2_uniqueness gFresh (by decide) (by decide) (by decide)).2 _⟩

/-- C7: `generate_email` raises the allocation-exhausted error exactly when
no candidate of the resolution ladder (whose numeric phase tries counters 1
through 9999) is available; while any ladder candidate is available no
error is possible. -/
theorem c7_alloc_exhausted_iff (g : EmailGenerator) (f l s : String) :
    generate_email g f l s = .error (exhMsg f l) ↔
      ∀ c ∈ ladderOf g f l s, _is_available g c = false := by
  rw [generate_email_eq_find]
  cases hf : (ladderOf g f l s).find? (fun c => _is_available g c) with
  | some c =>
    constructor
    · intro h
      exact Except.noConfusion h
    · intro hall
      exact absurd (List.find?_some hf)
        (by simp [hall c (List.mem_of_find?_eq_some hf)])
  | none =>
    constructor
    · intro _ c hc
      exact Bool.eq_false_iff.mpr (List.find?_eq_none.mp hf c hc)
    · intro _
      rfl

/-- C10: a successful `generate_email` call changes neither the
pre-existing-email set nor the existing-user index nor the domain; its only
state change is adding the returned address to the batch-allocated set, so
the new/existing resolution of every candidate is unaffected. -/
theorem c10_frame (g : EmailGenerator) (f l s e : String) (g' : EmailGenerator)
    (h : generate_email g f l s = .ok (e, g')) :
    g'.domain = g.domain ∧ g'.existing_emails = g.existing_emails ∧
      g'.existing_users = g.existing_users ∧
      g'.generated_in_batch = insertSet e g.generated_in_batch ∧
      ∀ n ln, check_existing_user g' n ln = check_existing_user g n ln := by
  obtain ⟨-, -, rfl⟩ := generate_email_ok_parts h
  exact ⟨rfl, rfl, rfl, rfl, fun n ln => rfl⟩

/-- C10 witness: the frame property at a concrete successful call. -/
theorem c10_witness :
    (addBatch gFresh "laura.becerra@ecr.edu.co").domain = gFresh.domain ∧
      (addBatch gFresh "laura.becerra@ecr.edu.co").existing_emails = gFresh.existing_emails ∧
      (addBatch gFresh "laura.becerra@ecr.edu.co").existing_users = gFresh.existing_users ∧
      (addBatch gFresh "laura.becerra@ecr.edu.co").generated_in_batch =
        insertSet "laura.becerra@ecr.edu.co" gFresh.generated_in_batch ∧
      check_existing_user (addBatch gFresh "laura.becerra@ecr.edu.co") "Ana" "Rojas" =
        check_existing_user gFresh "Ana" "Rojas" := by
  have h := c10_frame gFresh "Laura" "Becerra" "Sandoval" "laura.becerra@ecr.edu.co"
    (addBatch gFresh "laura.becerra@ecr.edu.co") rfl
  exact ⟨h.1, h.2.1, h.2.2.1, h.2.2.2.1, h.2.2.2.2 "Ana" "Rojas"⟩

theorem chListLe_total (a b : List Char) : chListLe a b = true ∨ chListLe b a = true := by
  induction a generalizing b with
  | nil => left; rfl
  | cons x xs ih =>
    cases b with
    | nil => right; rfl
    | cons y ys =>
      simp only [chListLe]
      rcases Nat.lt_trichotomy x.toNat y.toNat with h | h | h
      · left; simp [h]
      · have hne : ¬ x.toNat < y.toNat := by omega
        have hne2 : ¬ y.toNat < x.toNat := by omega
        rcases ih ys with h2 | h2
        · left; simp [hne, hne2, h2]
        · right; simp [hne, hne2, h2]
      · right; simp [h, Nat.lt_asymm h]

theorem chListLe_antisymm {a b : List Char} (h1 : chListLe a b = true)
    (h2 : chListLe b a = true) : a = b := by
  induction a generalizing b with
  | nil =>
    cases b with
    | nil => rfl
    | cons y ys => simp [chListLe] at h2
  | cons x xs ih =>
    cases b with
    | nil => simp [chListLe] at h1
    | cons y ys =>
      simp only [chListLe] at h1 h2
      by_cases hxy : x.toNat < y.toNat
      · have hyx : ¬ y.toNat < x.toNat := Nat.lt_asymm hxy
        simp [hxy, hyx] at h2
      · by_cases hyx : y.toNat < x.toNat
        · simp [hxy, hyx] at h1
        · have hx : x = y := char_toNat_inj (by omega)
          subst hx
          simp [hxy] at h1 h2
          rw [ih h1 h2]

theorem chListLe_trans {a b c : List Char} (h1 : chListLe a b = true)
    (h2 : chListLe b c = true) : chListLe a c = true := by
  induction a generalizing b c with
  | nil => rfl
  | cons x xs ih =>
    cases b with
    | nil => simp [chListLe] at h1
    | cons y ys =>
      cases c with
      | nil => simp [chListLe] at h2
      | cons z zs =>
        simp only [chListLe] at h1 h2 ⊢
        by_cases hxy : x.toNat < y.toNat
        · by_cases hyz : y.toNat < z.toNat
          · simp [show x.toNat < z.toNat by omega]
          · by_cases hzy : z.toNat < y.toNat
            · simp [hyz, hzy] at h2
            · simp [show x.toNat < z.toNat by omega]
        · by_cases hyx : y.toNat < x.toNat
          · simp [hxy, hyx] at h1
          · by_cases hyz : y.toNat < z.toNat
            · simp [show x.toNat < z.toNat by omega]
            · by_cases hzy : z.toNat < y.toNat
              · simp [hyz, hzy] at h2
              · have hxz : ¬ x.toNat < z.toNat := by omega
                have hzx : ¬ z.toNat < x.toNat := by omega
                rw [if_neg hxy, if_neg hyx] at h1
                rw [if_neg hyz, if_neg hzy] at h2
                rw [if_neg hxz, if_neg hzx]
                exact ih h1 h2

theorem insertionSort_perm_eq {l₁ l₂ : List String} (h : l₁.Perm l₂) :
    List.insertionSort (fun a b => pyStrLe a b = true) l₁ =
      List.insertionSort (fun a b => pyStrLe a b = true) l₂ := by
  haveI : IsTotal String (fun a b => pyStrLe a b = true) :=
    ⟨fun a b => chListLe_total a.data b.data⟩
  haveI : IsTrans String (fun a b => pyStrLe a b = true) :=
    ⟨fun _ _ _ => chListLe_trans⟩
  haveI : IsAntisymm String (fun a b => pyStrLe a b = true) :=
    ⟨fun a b h1 h2 => by
      cases a
      cases b
      exact congrArg String.mk (chListLe_antisymm h1 h2)⟩
  apply List.eq_of_perm_of_sorted (r := fun a b => pyStrLe a b = true)
  · exact (List.perm_insertionSort _ _).trans (h.trans (List.perm_insertionSort _ _).symm)
  · exact List.sorted_insertionSort _ _
  · exact List.sorted_insertionSort _ _

/-- C6: candidates whose combined name text normalizes to the same multiset
of tokens — regardless of token order and of how the tokens are split
between the given-name and family-name fields — receive the same
resolution from `check_existing_user` against the same index. -/
theorem c6_token_multiset_invariance (g : EmailGenerator) (n1 l1 n2 l2 : String)
    (h : (pySplit (normalize_for_email (n1 ++ " " ++ l1) true).data).Perm
        (pySplit (normalize_for_email (n2 ++ " " ++ l2) true).data)) :
    check_existing_user g n1 l1 = check_existing_user g n2 l2 := by
  unfold check_existing_user
  have hkey : _normalize_name_for_comparison n1 l1 = _normalize_name_for_comparison n2 l2 := by
    simp only [_normalize_name_for_comparison]
    rw [insertionSort_perm_eq (h.map (fun w => (⟨w⟩ : String)))]
  rw [hkey]

/-- C6 witness: swapping the given/family split and the token order yields
the same (successful) resolution. -/
theorem c6_witness :
    check_existing_user gW6 "Laura Sofia" "Becerra Sandoval" =
      check_existing_user gW6 "Becerra Sandoval" "Laura Sofia" ∧
      check_existing_user gW6 "Laura Sofia" "Becerra Sandoval" =
        some "laura.becerra@ecr.edu.co" :=
  ⟨c6_token_multiset_invariance gW6 "Laura Sofia" "Becerra Sandoval" "Becerra Sandoval"
      "Laura Sofia" (by decide), by rfl⟩

theorem load_existing_users_append_singleton (g : EmailGenerator) (l : List UserInfo)
    (u : UserInfo) :
    load_existing_users g (l ++ [u]) =
      (fun g (user : UserInfo) =>
          let email := pyLower user.email
          let display_name := user.display_name
          if (email != "") && (display_name != "") then
            { g with
              existing_users :=
                (_normalize_name_for_comparison_from_display display_name, email) ::
                  g.existing_users,
              existing_emails := insertSet email g.existing_emails }
          else g)
        (load_existing_users g l) u := by
  unfold load_existing_users
  rw [List.foldl_append]
  rfl

theorem load_lookup (l : List UserInfo) (g : EmailGenerator) (k : String) :
    dictGet k (load_existing_users g l).existing_users =
      match
        (l.filter (fun u => (pyLower u.email != "") && (u.display_name != "") &&
            (_normalize_name_for_comparison_from_display u.display_name == k))).getLast?
      with
      | some u => some (pyLower u.email)
      | none => dictGet k g.existing_users := by
  induction l using List.reverseRecOn with
  | nil => rfl
  | append_singleton l u ih =>
    rw [load_existing_users_append_singleton, List.filter_append]
    by_cases hp : (pyLower u.email != "") && (u.display_name != "")
    · simp only [hp, if_true]
      by_cases hk : _normalize_name_for_comparison_from_display u.display_name == k
      · have hfu : [u].filter (fun u => (pyLower u.email != "") && (u.display_name != "") &&
            (_normalize_name_for_comparison_from_display u.display_name == k)) = [u] := by
          simp [List.filter, hp, hk]
        rw [hfu, List.getLast?_concat]
        unfold dictGet
        rw [List.find?_cons]
        simp [hk]
      · have hfu : [u].filter (fun u => (pyLower u.email != "") && (u.display_name != "") &&
            (_normalize_name_for_comparison_from_display u.display_name == k)) = [] := by
          simp only [List.filter, Bool.and_eq_false_iff]
          simp [hk]
        rw [hfu, List.append_nil]
        have hgd : dictGet k
            ((_normalize_name_for_comparison_from_display u.display_name, pyLower u.email) ::
              (load_existing_users g l).existing_users) =
            dictGet k (load_existing_users g l).existing_users := by
          unfold dictGet
          rw [List.find?_cons]
          simp [hk]
        exact hgd.trans ih
    · simp only [hp, if_false]
      have hfu : [u].filter (fun u => (pyLower u.email != "") && (u.display_name != "") &&
          (_normalize_name_for_comparison_from_display u.display_name == k)) = [] := by
        simp only [List.filter]
        rw [Bool.eq_false_iff.mpr hp, Bool.false_and]
      rw [hfu, List.append_nil]
      exact ih

/-- C8: after `load_existing_users` builds the index from a roster, lookup
of a candidate's normalized key returns the lower-cased email of the last
roster entry (with non-empty email and display name) whose display name
normalizes to that key — later collisions on the same key overwrite earlier
ones — and `None` when no indexed key matches exactly. -/
theorem c8_last_write_wins (domain : String) (l : List UserInfo) (fn ln : String) :
    check_existing_user (load_existing_users ⟨domain, [], [], []⟩ l) fn ln =
      ((l.filter (fun u => (pyLower u.email != "") && (u.display_name != "") &&
            (_normalize_name_for_comparison_from_display u.display_name ==
              _normalize_name_for_comparison fn ln))).getLast?).map
        (fun u => pyLower u.email) := by
  unfold check_existing_user
  rw [load_lookup l ⟨domain, [], [], []⟩ (_normalize_name_for_comparison fn ln)]
  cases (l.filter (fun u => (pyLower u.email != "") && (u.display_name != "") &&
      (_normalize_name_for_comparison_from_display u.display_name ==
        _normalize_name_for_comparison fn ln))).getLast? with
  | none => rfl
  | some u => rfl

theorem attemptNumbers_succ (s n : Nat) :
    attemptNumbers s (n + 1) = s :: attemptNumbers (s + 1) n := rfl

theorem assignAttempts_cons (oracle : Nat → Except String Bool) (a : Nat) (rest : List Nat) :
    assignAttempts oracle (a :: rest) =
      match oracle a with
      | .error e => .error e
      | .ok success =>
        if success then .ok ⟨true, 1, 0⟩
        else
          if rest.isEmpty then .ok ⟨false, 1, 0⟩
          else
            match assignAttempts oracle rest with
            | .error e => .error e
            | .ok r => .ok ⟨r.assigned, r.calls + 1, r.sleeps + 1⟩ := by
  conv_lhs => unfold assignAttempts
  try rfl

theorem assignAttempts_all_fail (oracle : Nat → Except String Bool) (f : Nat → Bool)
    (hf : ∀ k, oracle k = .ok (f k)) :
    ∀ n s, (∀ k, s ≤ k → k < s + n → f k = false) →
      assignAttempts oracle (attemptNumbers s n) = .ok ⟨false, n, n - 1⟩ := by
  intro n
  induction n with
  | zero => intro s _; rfl
  | succ n ih =>
    intro s hall
    rw [attemptNumbers_succ, assignAttempts_cons]
    rw [hf s, hall s (Nat.le_refl s) (by omega)]
    cases n with
    | zero => rfl
    | succ m =>
      have hrec := ih (s + 1) (fun k hk1 hk2 => hall k (by omega) (by omega))
      simp only [Bool.false_eq_true, if_false,
        show (attemptNumbers (s + 1) (m + 1)).isEmpty = false from rfl]
      rw [hrec]
      rfl

theorem assignAttempts_first_succ (oracle : Nat → Except String Bool) (f : Nat → Bool)
    (hf : ∀ k, oracle k = .ok (f k)) :
    ∀ n s k₀, s ≤ k₀ → k₀ < s + n → f k₀ = true → (∀ j, s ≤ j → j < k₀ → f j = false) →
      assignAttempts oracle (attemptNumbers s n) = .ok ⟨true, k₀ - s + 1, k₀ - s⟩ := by
  intro n
  induction n with
  | zero =>
    intro s k₀ h1 h2 _ _
    exact absurd h2 (by omega)
  | succ n ih =>
    intro s k₀ h1 h2 hk hleast
    rw [attemptNumbers_succ, assignAttempts_cons]
    rw [hf s]
    by_cases hs : k₀ = s
    · subst hs
      rw [hk]
      simp only [if_true]
      rw [Nat.sub_self]
    · have hfs : f s = false := hleast s (Nat.le_refl s) (by omega)
      rw [hfs]
      cases n with
      | zero => exact absurd h2 (by omega)
      | succ m =>
        have hrec := ih (s + 1) k₀ (by omega) (by omega) hk
          (fun j hj1 hj2 => hleast j (by omega) hj2)
        simp only [Bool.false_eq_true, if_false,
          show (attemptNumbers (s + 1) (m + 1)).isEmpty = false from rfl]
        rw [hrec]
        have e1 : k₀ - (s + 1) + 1 = k₀ - s := by omega
        show (Except.ok (⟨true, k₀ - (s + 1) + 1 + 1, k₀ - (s + 1) + 1⟩ : RetryOutcome) :
            Except String RetryOutcome) = _
        rw [e1]

theorem assignAttempts_calls_le (oracle : Nat → Except String Bool) (f : Nat → Bool)
    (hf : ∀ k, oracle k = .ok (f k)) :
    ∀ n s, ∃ r, assignAttempts oracle (attemptNumbers s n) = .ok r ∧ r.calls ≤ n := by
  intro n
  induction n with
  | zero => exact fun s => ⟨⟨false, 0, 0⟩, rfl, Nat.le_refl 0⟩
  | succ n ih =>
    intro s
    rw [attemptNumbers_succ, assignAttempts_cons]
    rw [hf s]
    cases hfs : f s with
    | true => exact ⟨⟨true, 1, 0⟩, rfl, by show 1 ≤ n + 1; omega⟩
    | false =>
      cases n with
      | zero => exact ⟨⟨false, 1, 0⟩, rfl, by show 1 ≤ 0 + 1; omega⟩
      | succ m =>
        obtain ⟨r, hr, hc⟩ := ih (s + 1)
        simp only [Bool.false_eq_true, if_false,
          show (attemptNumbers (s + 1) (m + 1)).isEmpty = false from rfl]
        rw [hr]
        exact ⟨⟨r.assigned, r.calls + 1, r.sleeps + 1⟩, rfl, by show r.calls + 1 ≤ m + 1 + 1; omega⟩

/-- C5: `_assign_to_group_with_retry` returns a result after at most
`max_attempts` calls of the assignment operation; when the assignment first
succeeds at attempt `k₀` it returns `true` after exactly `k₀` calls and
`k₀ - 1` backoff sleeps; and when every attempt fails it returns `false`
after all `max_attempts` calls with `max_attempts - 1` sleeps in between. -/
theorem c5_retry_protocol (oracle : Nat → Except String Bool) (f : Nat → Bool)
    (max_attempts : Nat) (hf : ∀ k, oracle k = .ok (f k)) :
    (∃ r, _assign_to_group_with_retry oracle max_attempts = .ok r ∧ r.calls ≤ max_attempts) ∧
      (∀ k₀, 1 ≤ k₀ → k₀ ≤ max_attempts → f k₀ = true →
        (∀ j, j < k₀ → 1 ≤ j → f j = false) →
        _assign_to_group_with_retry oracle max_attempts = .ok ⟨true, k₀, k₀ - 1⟩) ∧
      ((∀ k, k ≤ max_attempts → 1 ≤ k → f k = false) →
        _assign_to_group_with_retry oracle max_attempts =
          .ok ⟨false, max_attempts, max_attempts - 1⟩) := by
  refine ⟨assignAttempts_calls_le oracle f hf max_attempts 1, ?_, ?_⟩
  · intro k₀ h1 h2 hk hleast
    have h := assignAttempts_first_succ oracle f hf max_attempts 1 k₀ h1 (by omega) hk
      (fun j hj1 hj2 => hleast j hj2 hj1)
    unfold _assign_to_group_with_retry
    rw [h]
    have e1 : k₀ - 1 + 1 = k₀ := by omega
    simp only [e1]
  · intro hall
    exact assignAttempts_all_fail oracle f hf max_attempts 1
      (fun k hk1 hk2 => hall k (by omega) hk1)

/-- C5 witness: scenario D — two failures then success on the third attempt
yields `true` after three calls and exactly two backoff sleeps. -/
theorem c5_witness : _assign_to_group_with_retry oracleD 3 = .ok ⟨true, 3, 2⟩ :=
  (c5_retry_protocol oracleD (fun k => k == 3) 3 (fun _ => rfl)).2.1 3 (by decide) (by decide)
    (by decide) (by decide)

theorem proj_eq_preds {u v : UserRec} (h : projOutcome u = projOutcome v) :
    u.status = v.status ∧ isFullyProvisioned u = isFullyProvisioned v ∧
      isCreatedWithoutGroup u = isCreatedWithoutGroup v ∧ isFailedNew u = isFailedNew v := by
  unfold projOutcome at h
  simp only [Prod.mk.injEq] at h
  obtain ⟨h1, h2, h3⟩ := h
  unfold isFullyProvisioned isCreatedWithoutGroup isFailedNew
  rw [h1, h2, h3]
  exact ⟨rfl, rfl, rfl, rfl⟩

theorem processNewUserTry_contract (st : Settings) (env : UserEnv) (flag : Bool) (u : UserRec) :
    tryContract (processNewUserTry st env flag u) u := by
  cases flag with
  | false =>
    exact ⟨rfl, Or.inr rfl, by simp [isCreatedWithoutGroup]⟩
  | true =>
    unfold processNewUserTry
    cases hcr : env.create_result with
    | error e => exact trivial
    | ok creation_result =>
      obtain ⟨succ, uid, errf⟩ := creation_result
      cases succ with
      | false => exact ⟨rfl, Or.inr rfl, by simp [isCreatedWithoutGroup]⟩
      | true =>
        cases hgid : env.group_id_result with
        | error e => exact trivial
        | ok gid =>
          cases gid with
          | none => exact ⟨rfl, Or.inl rfl, by simp [isCreatedWithoutGroup]⟩
          | some gv =>
            cases hretry : _assign_to_group_with_retry env.assign_result 3 with
            | error e => exact trivial
            | ok rr =>
              obtain ⟨ass, cl, sl⟩ := rr
              cases ass with
              | true => exact ⟨rfl, Or.inl rfl, by simp [isCreatedWithoutGroup]⟩
              | false => exact ⟨rfl, Or.inl rfl, by simp [isCreatedWithoutGroup]⟩

theorem processNewUser_spec (st : Settings) (env : UserEnv) (flag : Bool) (u : UserRec) :
    (processNewUser st env flag u).1.status = u.status ∧
      ((processNewUser st env flag u).1.office365_created = some true ∨
        (processNewUser st env flag u).1.office365_created = some false) ∧
      (processNewUser st env flag u).2.length =
        (if isCreatedWithoutGroup (processNewUser st env flag u).1 then 1 else 0) := by
  have hc := processNewUserTry_contract st env flag u
  unfold processNewUser
  cases htry : processNewUserTry st env flag u with
  | error e =>
    exact ⟨rfl, Or.inr rfl, by simp [isCreatedWithoutGroup]⟩
  | ok p =>
    obtain ⟨r, fus⟩ := p
    rw [htry] at hc
    have h3 : r.status = u.status ∧
        (r.office365_created = some true ∨ r.office365_created = some false) ∧
        fus.length = (if isCreatedWithoutGroup r then 1 else 0) := hc
    exact h3

theorem exactlyOne (u : UserRec) (hs : u.status = "new")
    (hc : u.office365_created = some true ∨ u.office365_created = some false) :
    (if isFullyProvisioned u then 1 else 0) + (if isCreatedWithoutGroup u then 1 else 0) +
      (if isFailedNew u then 1 else 0) = 1 := by
  unfold isFullyProvisioned isCreatedWithoutGroup isFailedNew
  rcases hc with hc | hc <;> rw [hc, hs] <;> cases hg : u.group_assigned <;> simp

theorem processList_cons (st : Settings) (env : Nat → UserEnv) (flag : Bool) (i : Nat)
    (u : UserRec) (rest : List UserRec) :
    processList st env flag i (u :: rest) =
      processNewUser st (env i) flag u :: processList st env flag (i + 1) rest := rfl

theorem processList_spec (st : Settings) (env : Nat → UserEnv) (flag : Bool) :
    ∀ (l : List UserRec) (i : Nat), (∀ u ∈ l, u.status = "new") →
      (((processList st env flag i l).map Prod.fst).countP isFullyProvisioned +
          ((processList st env flag i l).map Prod.fst).countP isCreatedWithoutGroup +
          ((processList st env flag i l).map Prod.fst).countP isFailedNew = l.length) ∧
        ((processList st env flag i l).map Prod.fst).countP isCreatedWithoutGroup =
          ((processList st env flag i l).flatMap Prod.snd).length ∧
        (∀ u ∈ (processList st env flag i l).map Prod.fst, u.status = "new" ∧
          (u.office365_created = some true ∨ u.office365_created = some false)) := by
  intro l
  induction l with
  | nil => intro i _; exact ⟨rfl, rfl, by simp [processList]⟩
  | cons u rest ih =>
    intro i hl
    obtain ⟨ih1, ih2, ih3⟩ := ih (i + 1) (fun v hv => hl v (List.mem_cons_of_mem u hv))
    obtain ⟨hstat, hcreated, hflen⟩ := processNewUser_spec st (env i) flag u
    have hu : u.status = "new" := hl u (List.mem_cons_self u rest)
    have hrstat : (processNewUser st (env i) flag u).1.status = "new" := hstat.trans hu
    have hone := exactlyOne (processNewUser st (env i) flag u).1 hrstat hcreated
    refine ⟨?_, ?_, ?_⟩
    · simp only [processList_cons, List.map_cons, List.countP_cons, List.length_cons]
      omega
    · simp only [processList_cons, List.map_cons, List.countP_cons, List.flatMap_cons,
        List.length_append]
      omega
    · intro v hv
      simp only [processList_cons, List.map_cons, List.mem_cons] at hv
      rcases hv with rfl | hvm
      · exact ⟨hrstat, hcreated⟩
      · exact ih3 v hvm

theorem attachLoop_countP (p : UserRec → Bool)
    (hp : ∀ r fus, p { r with created_without_group_list := some fus } = p r)
    (fu : List FollowUp) :
    ∀ rs rs', attachLoop fu rs = some rs' → rs'.countP p = rs.countP p := by
  intro rs
  induction rs with
  | nil => intro rs' h; exact Option.noConfusion h
  | cons r rest ih =>
    intro rs' h
    unfold attachLoop at h
    by_cases hm : (r.status == "metadata") = true
    · rw [if_pos hm] at h
      cases hal : attachLoop fu rest with
      | none => rw [hal] at h; exact Option.noConfusion h
      | some rs2 =>
        rw [hal] at h
        simp only [Option.map_some', Option.some.injEq] at h
        subst h
        rw [List.countP_cons, List.countP_cons, ih rs2 hal]
    · rw [if_neg hm] at h
      simp only [Option.some.injEq] at h
      subst h
      rw [List.countP_cons, List.countP_cons, hp r fu]

theorem attachFollowUps_countP (p : UserRec → Bool)
    (hp : ∀ r fus, p { r with created_without_group_list := some fus } = p r)
    (hmeta : ∀ fus, p (metadataRec fus) = false) (rs : List UserRec) (fu : List FollowUp) :
    (attachFollowUps rs fu).countP p = rs.countP p := by
  unfold attachFollowUps
  by_cases hfu : fu.isEmpty = true
  · rw [if_pos hfu]
  · rw [if_neg hfu]
    cases hal : attachLoop fu rs with
    | some rs' => exact attachLoop_countP p hp fu rs rs' hal
    | none =>
      rw [List.countP_append]
      simp [hmeta]

theorem attachLoop_mem (fu : List FollowUp) :
    ∀ rs rs', attachLoop fu rs = some rs' →
      ∀ u ∈ rs', ∃ v ∈ rs, projOutcome u = projOutcome v := by
  intro rs
  induction rs with
  | nil => intro rs' h; exact Option.noConfusion h
  | cons r rest ih =>
    intro rs' h
    unfold attachLoop at h
    by_cases hm : (r.status == "metadata") = true
    · rw [if_pos hm] at h
      cases hal : attachLoop fu rest with
      | none => rw [hal] at h; exact Option.noConfusion h
      | some rs2 =>
        rw [hal] at h
        simp only [Option.map_some', Option.some.injEq] at h
        subst h
        intro u hu
        rcases List.mem_cons.mp hu with rfl | hu2
        · exact ⟨u, List.mem_cons_self u rest, rfl⟩
        · obtain ⟨v, hv, hvp⟩ := ih rs2 hal u hu2
          exact ⟨v, List.mem_cons_of_mem r hv, hvp⟩
    · rw [if_neg hm] at h
      simp only [Option.some.injEq] at h
      subst h
      intro u hu
      rcases List.mem_cons.mp hu with rfl | hu2
      · exact ⟨r, List.mem_cons_self r rest, rfl⟩
      · exact ⟨u, List.mem_cons_of_mem r hu2, rfl⟩

theorem attachFollowUps_mem (rs : List UserRec) (fu : List FollowUp) :
    ∀ u ∈ attachFollowUps rs fu,
      u = metadataRec fu ∨ ∃ v ∈ rs, projOutcome u = projOutcome v := by
  intro u hu
  unfold attachFollowUps at hu
  by_cases hfu : fu.isEmpty = true
  · rw [if_pos hfu] at hu
    exact Or.inr ⟨u, hu, rfl⟩
  · rw [if_neg hfu] at hu
    cases hal : attachLoop fu rs with
    | some rs' =>
      rw [hal] at hu
      exact Or.inr (attachLoop_mem fu rs rs' hal u hu)
    | none =>
      rw [hal] at hu
      rcases List.mem_append.mp hu with hu2 | hu2
      · exact Or.inr ⟨u, hu2, rfl⟩
      · simp only [List.mem_singleton] at hu2
        exact Or.inl hu2

/-- The results component of `create_users`: processed new records, then
the cleared existing records, with the follow-up list attached. -/
theorem create_users_fst (st : Settings) (env : Nat → UserEnv) (users : List UserRec)
    (flag : Bool) :
    (create_users st env users flag).1 =
      attachFollowUps
        ((processList st env flag 0 (users.filter (fun u => u.status == "new"))).map Prod.fst ++
          (users.filter (fun u => u.status == "existing")).map
            (fun u =>
              { u with
                  office365_created := some false
                  password_generated := none
                  group_assigned := none
                  creation_error := none }))
        ((processList st env flag 0
            (users.filter (fun u => u.status == "new"))).flatMap Prod.snd) := rfl

/-- The `created_without_group` component of `create_users`. -/
theorem create_users_snd (st : Settings) (env : Nat → UserEnv) (users : List UserRec)
    (flag : Bool) :
    (create_users st env users flag).2 =
      (processList st env flag 0 (users.filter (fun u => u.status == "new"))).flatMap
        Prod.snd := rfl

theorem existing_map_countP (users : List UserRec) (p : UserRec → Bool)
    (hp : ∀ u : UserRec, u.status = "existing" →
      p { u with
            office365_created := some false
            password_generated := none
            group_assigned := none
            creation_error := none } = false) :
    ((users.filter (fun u => u.status == "existing")).map
        (fun u =>
          { u with
              office365_created := some false
              password_generated := none
              group_assigned := none
              creation_error := none })).countP p = 0 := by
  rw [List.countP_eq_zero]
  intro a ha
  obtain ⟨u, hu, rfl⟩ := List.mem_map.mp ha
  have hst : u.status = "existing" := by simpa using (List.mem_filter.mp hu).2
  simp [hp u hst]

/-- C3: after `create_users`, the result records created with a group, the
records created without a group, and the failed new records partition the
status-`new` records: their counts sum to the number of new input records,
every new result record is in exactly one class, and the
created-without-group class is exactly the follow-up list. -/
theorem c3_batch_partition (st : Settings) (env : Nat → UserEnv) (users : List UserRec)
    (flag : Bool) :
    ((create_users st env users flag).1.countP isFullyProvisioned +
        (create_users st env users flag).1.countP isCreatedWithoutGroup +
        (create_users st env users flag).1.countP isFailedNew =
      users.countP (fun u => u.status == "new")) ∧
      (∀ u ∈ (create_users st env users flag).1, u.status = "new" →
        (if isFullyProvisioned u then 1 else 0) + (if isCreatedWithoutGroup u then 1 else 0) +
            (if isFailedNew u then 1 else 0) = 1) ∧
      (create_users st env users flag).1.countP isCreatedWithoutGroup =
        (create_users st env users flag).2.length := by
  have hnewlist : ∀ u ∈ users.filter (fun u => u.status == "new"), u.status = "new" := by
    intro u hu
    simpa using (List.mem_filter.mp hu).2
  obtain ⟨hs1, hs2, hs3⟩ :=
    processList_spec st env flag (users.filter (fun u => u.status == "new")) 0 hnewlist
  have hpF : ∀ (r : UserRec) (fus : List FollowUp),
      isFullyProvisioned { r with created_without_group_list := some fus } =
        isFullyProvisioned r := fun _ _ => rfl
  have hpC : ∀ (r : UserRec) (fus : List FollowUp),
      isCreatedWithoutGroup { r with created_without_group_list := some fus } =
        isCreatedWithoutGroup r := fun _ _ => rfl
  have hpE : ∀ (r : UserRec) (fus : List FollowUp),
      isFailedNew { r with created_without_group_list := some fus } = isFailedNew r :=
    fun _ _ => rfl
  have hmF : ∀ fus, isFullyProvisioned (metadataRec fus) = false := fun _ => rfl
  have hmC : ∀ fus, isCreatedWithoutGroup (metadataRec fus) = false := fun _ => rfl
  have hmE : ∀ fus, isFailedNew (metadataRec fus) = false := fun _ => rfl
  refine ⟨?_, ?_, ?_⟩
  · rw [create_users_fst, attachFollowUps_countP _ hpF hmF, attachFollowUps_countP _ hpC hmC,
      attachFollowUps_countP _ hpE hmE, List.countP_append, List.countP_append,
      List.countP_append,
      existing_map_countP users isFullyProvisioned (fun u _ => by simp [isFullyProvisioned]),
      existing_map_countP users isCreatedWithoutGroup
        (fun u _ => by simp [isCreatedWithoutGroup]),
      existing_map_countP users isFailedNew (fun u hu => by simp [isFailedNew, hu])]
    rw [← List.countP_eq_length_filter] at hs1
    omega
  · intro u hu hstat
    rw [create_users_fst] at hu
    rcases attachFollowUps_mem _ _ u hu with rfl | ⟨v, hv, hproj⟩
    · exact absurd hstat (by simp [metadataRec])
    · obtain ⟨hst, hF, hC, hE⟩ := proj_eq_preds hproj
      rcases List.mem_append.mp hv with hvA | hvB
      · obtain ⟨hvnew, hvcreated⟩ := hs3 v hvA
        rw [hF, hC, hE]
        exact exactlyOne v hvnew hvcreated
      · obtain ⟨w, hw, rfl⟩ := List.mem_map.mp hvB
        have hwstat : w.status = "existing" := by simpa using (List.mem_filter.mp hw).2
        have hwnew : w.status = "new" := hst ▸ hstat
        rw [hwstat] at hwnew
        exact absurd hwnew (by decide)
  · rw [create_users_fst, create_users_snd, attachFollowUps_countP _ hpC hmC,
      List.countP_append,
      existing_map_countP users isCreatedWithoutGroup
        (fun u _ => by simp [isCreatedWithoutGroup])]
    omega

theorem filter_existing_of_new (L : List UserRec) (hL : ∀ r ∈ L, r.status = "new") :
    L.filter (fun r => r.status == "existing") = [] := by
  rw [List.filter_eq_nil_iff]
  intro a ha
  simp [hL a ha]

/-- C9: the records with status `existing` pass through `create_users`
untouched except for the four cleared outcome fields: the existing part of
the result is computed from the input alone (in particular no oracle —
password generation, directory or group call — can influence it), in input
order, with every other field unchanged. -/
theorem c9_existing_untouched (st : Settings) (env : Nat → UserEnv) (users : List UserRec)
    (flag : Bool) :
    (create_users st env users flag).1.filter (fun r => r.status == "existing") =
      (users.filter (fun u => u.status == "existing")).map
        (fun u =>
          { u with
              office365_created := some false
              password_generated := none
              group_assigned := none
              creation_error := none }) := by
  rw [create_users_fst]
  have hnewlist : ∀ u ∈ users.filter (fun u => u.status == "new"), u.status = "new" := by
    intro u hu
    simpa using (List.mem_filter.mp hu).2
  have hs3 := (processList_spec st env flag (users.filter (fun u => u.status == "new")) 0
    hnewlist).2.2
  have hB : (((users.filter (fun u => u.status == "existing")).map
      (fun u =>
        { u with
            office365_created := some false
            password_generated := none
            group_assigned := none
            creation_error := none })).filter (fun r => r.status == "existing")) =
      (users.filter (fun u => u.status == "existing")).map
        (fun u =>
          { u with
              office365_created := some false
              password_generated := none
              group_assigned := none
              creation_error := none }) := by
    rw [List.filter_eq_self]
    intro a ha
    obtain ⟨u, hu, rfl⟩ := List.mem_map.mp ha
    have hst : u.status = "existing" := by simpa using (List.mem_filter.mp hu).2
    simp [hst]
  by_cases hful :
      ((processList st env flag 0
          (users.filter (fun u => u.status == "new"))).flatMap Prod.snd).isEmpty = true
  · unfold attachFollowUps
    rw [if_pos hful, List.filter_append,
      filter_existing_of_new _ (fun r hr => (hs3 r hr).1), List.nil_append, hB]
  · cases hnf : users.filter (fun u => u.status == "new") with
    | nil =>
      exfalso
      rw [hnf] at hful
      exact hful rfl
    | cons u0 newrest =>
      have hu0new : u0.status = "new" := by
        have hmem : u0 ∈ users.filter (fun u => u.status == "new") := by
          rw [hnf]
          exact List.mem_cons_self u0 newrest
        simpa using (List.mem_filter.mp hmem).2
      have hstat0 : (processNewUser st (env 0) flag u0).1.status = "new" :=
        (processNewUser_spec st (env 0) flag u0).1.trans hu0new
      rw [hnf] at hs3
      rw [hnf] at hful
      rw [processList_cons] at hs3
      rw [processList_cons] at hful
      rw [processList_cons]
      rw [List.map_cons] at hs3
      rw [List.map_cons]
      rw [List.cons_append]
      unfold attachFollowUps
      rw [if_neg hful]
      unfold attachLoop
      rw [hstat0]
      rw [if_neg (by decide)]
      rw [List.filter_cons_of_neg (by simp [hstat0])]
      rw [List.filter_append,
        filter_existing_of_new _
          (fun r hr => (hs3 r (List.mem_cons_of_mem _ hr)).1),
        List.nil_append, hB]

/-- C3 witness: a concrete two-record batch satisfies the partition count
and its fully provisioned result record is in exactly one class. -/
theorem c3_witness :
    ((create_users stW envW [uNewW, uExistW] true).1.countP isFullyProvisioned +
        (create_users stW envW [uNewW, uExistW] true).1.countP isCreatedWithoutGroup +
        (create_users stW envW [uNewW, uExistW] true).1.countP isFailedNew =
      [uNewW, uExistW].countP (fun u => u.status == "new")) ∧
      (if isFullyProvisioned uNewDoneW then 1 else 0) +
          (if isCreatedWithoutGroup uNewDoneW then 1 else 0) +
          (if isFailedNew uNewDoneW then 1 else 0) = 1 :=
  ⟨(c3_batch_partition stW envW [uNewW, uExistW] true).1,
    (c3_batch_partition stW envW [uNewW, uExistW] true).2.1 uNewDoneW (by decide) (by decide)⟩

theorem gC4_exhausted : generate_email gC4 "Ana" "Rojas" "" = .error (exhMsg "Ana" "Rojas") := by
  rw [generate_email_eq_find]
  have hnone : (ladderOf gC4 "Ana" "Rojas" "").find? (fun c => _is_available gC4 c) = none := by
    rw [List.find?_eq_none]
    intro c hc
    have hmem : pyLower c ∈ gC4.existing_emails := List.mem_map_of_mem pyLower hc
    simp [_is_available, List.elem_iff, hmem]
  rw [hnone]

theorem step3_cons_error (g : EmailGenerator) (user : UserRec) (rest : List UserRec)
    (msg : String)
    (hchk : check_existing_user g user.full_name user.full_last_name = none)
    (hgen : generate_email g user.first_name user.first_last_name user.second_last_name =
      .error msg) :
    process_users_step3 g (user :: rest) = .error msg := by
  unfold process_users_step3
  rw [hchk, hgen]

/-- C4 counterexample: with the first candidate's ladder exhausted, the
batch loop of `process_file` does not capture the error into the record and
continue — it returns the error, aborting the whole batch, so no record
list is produced at all. -/
theorem c4_counterexample :
    process_users_step3 gC4 [uC4a, uC4b] = .error (exhMsg "Ana" "Rojas") ∧
      ∀ res g', process_users_step3 gC4 [uC4a, uC4b] ≠ .ok (res, g') := by
  have h1 : process_users_step3 gC4 [uC4a, uC4b] = .error (exhMsg "Ana" "Rojas") :=
    step3_cons_error gC4 uC4a [uC4b] (exhMsg "Ana" "Rojas") rfl gC4_exhausted
  exact ⟨h1, fun res g' hok => by rw [h1] at hok; exact Except.noConfusion hok⟩

/-- C4 amended: when address allocation raises the allocation-exhausted
error for a candidate, the error propagates out of the batch loop of
`process_file`, aborting the remaining candidates; it is not captured into
the record. -/
theorem c4_amended_abort (g : EmailGenerator) (user : UserRec) (rest : List UserRec)
    (msg : String)
    (hchk : check_existing_user g user.full_name user.full_last_name = none)
    (hgen : generate_email g user.first_name user.first_last_name user.second_last_name =
      .error msg) :
    process_users_step3 g (user :: rest) = .error msg :=
  step3_cons_error g user rest msg hchk hgen

/-- C4 amended witness: the abort at the concrete exhausted state. -/
theorem c4_amended_witness : process_users_step3 gC4 [uC4a] = .error (exhMsg "Ana" "Rojas") :=
  c4_amended_abort gC4 uC4a [] (exhMsg "Ana" "Rojas") rfl gC4_exhausted

/-- C7 witness: at a state where every ladder candidate is taken, the call
yields exactly the allocation-exhausted error. -/
theorem c7_witness : generate_email gC4 "Ana" "Rojas" "" = .error (exhMsg "Ana" "Rojas") :=
  (c7_alloc_exhausted_iff gC4 "Ana" "Rojas" "").mpr (fun c hc => by
    have hmem : pyLower c ∈ gC4.existing_emails := List.mem_map_of_mem pyLower hc
    simp [_is_available, List.elem_iff, hmem])

/-- C8 witness: with two colliding roster entries, lookup returns the later
entry's email. -/
theorem c8_witness :
    check_existing_user (load_existing_users ⟨"ecr.edu.co", [], [], []⟩ rosterW)
        "Laura Sofia" "Becerra Sandoval" = some "laura2@ecr.edu.co" :=
  (c8_last_write_wins "ecr.edu.co" rosterW "Laura Sofia" "Becerra Sandoval").trans (by rfl)

/-- C9 witness: in a concrete batch the existing record comes through with
only the four outcome fields cleared. -/
theorem c9_witness :
    (create_users stW envW [uNewW, uExistW] true).1.filter (fun r => r.status == "existing") =
      [{ uExistW with
          office365_created := some false
          password_generated := none
          group_assigned := none
          creation_error := none }] :=
  (c9_existing_untouched stW envW [uNewW, uExistW] true).trans (by rfl)

end UAS
